import Mathlib

/-!
Verification of the walk-forward regression allocation core
(`level_relationship` in `infertrade/algos/community/allocations.py`).

The embedding works over exact rationals.  The source computes, per window,
`volatility = (1 + sqrt mse) * forecast_distance ^ (-0.5) - 1` and afterwards
only tests the sign of `volatility`, tests it against zero, and divides by
`volatility ^ 2`.  The executable pipeline therefore carries the square of the
volatility as a rational; the real-valued formula is defined separately
(`volatilityFormula`, `flooredVolatility`) and lemmas prove that the rational
pipeline agrees with it pointwise.

Parts of the repository that the source imports but that are not present under
src (the utilities module, the PandasEnum column map) are modelled from the
specification; each such definition carries a doc comment saying so.
-/

set_option maxRecDepth 8000

/-- Modelled from the spec: `infertrade.utilities.operations.lag` with
`shift = 1` is not under src.  Per spec section 6, position `i` holds the value
at position `i - 1` for `i >= 1` and position 0 holds the fill value 0.0.
The source additionally re-assigns index 0 to 0.0, which is already the case. -/
def lag1 : List ℚ → List ℚ
  | [] => []
  | x :: xs => 0 :: (x :: xs).dropLast

/-- Modelled from the spec: `infertrade.utilities.operations.pct_chg` is not
under src.  Per spec section 6, position `i` holds
`(value i - value (i-1)) / value (i-1)` for `i >= 1` and position 0 holds the
fill value 0.0.  The source additionally re-assigns index 0 to 0.0, which is
already the case. -/
def pct_chg : List ℚ → List ℚ
  | [] => []
  | x :: xs => 0 :: List.zipWith (fun prev cur => (cur - prev) / prev) (x :: xs) xs

/-- Arithmetic mean of a list of rationals (mean of the empty list is 0). -/
def qMean (xs : List ℚ) : ℚ := xs.sum / (xs.length : ℚ)

/-- Square of `np.std` (population standard deviation, `ddof = 0`):
the mean of the squared deviations from the mean. -/
def qVariance (xs : List ℚ) : ℚ := qMean (xs.map (fun x => (x - qMean xs) ^ 2))

/-- Mean squared error of `sklearn.metrics.mean_squared_error`:
mean of the squared componentwise differences. -/
def meanSquaredError (y yhat : List ℚ) : ℚ :=
  qMean (List.zipWith (fun a b => (a - b) ^ 2) y yhat)

/-- A fitted univariate linear model: the `intercept_` and `coef_` of a
fitted `sklearn.linear_model.LinearRegression`. -/
structure FittedModel where
  intercept : ℚ
  coef : ℚ
deriving DecidableEq

/-- Prediction of the fitted model at a single regressor value. -/
def FittedModel.predict (m : FittedModel) (x : ℚ) : ℚ := m.intercept + m.coef * x

/-- Ordinary least squares fit of `y` on a single regressor `x`
(the closed form computed by `LinearRegression().fit` on one feature). -/
def fitOLS (x y : List ℚ) : FittedModel :=
  let xbar := qMean x
  let ybar := qMean y
  let sxx := (x.map (fun v => (v - xbar) ^ 2)).sum
  let sxy := (List.zipWith (fun a b => (a - xbar) * (b - ybar)) x y).sum
  { intercept := ybar - (sxy / sxx) * xbar, coef := sxy / sxx }

/-- One window of the walk-forward loop: the fit indices (`model_idx`) and the
single prediction index (`prediction_idx`). -/
structure WindowIdx where
  model_idx : List ℕ
  prediction_idx : ℕ
deriving DecidableEq

/-- Modelled from the spec:
`PricePredictionFromSignalRegression._get_model_prediction_indices` lives in
`infertrade/utilities/operations.py`, which is not under src.  Per spec
section 4.1: windows start at the first index with a full `reg_period` history
of lagged values (lagged values exist from index 1, so the first prediction
index is `reg_period + 1`); each fit range is the `reg_period` most recent
points ending just before the prediction point; successive prediction points
advance by one step; a window is emitted only while the prediction index plus
the forecast lookahead stays within the series bounds. -/
def get_model_prediction_indices (series_length reg_period fc_period : ℕ) :
    List WindowIdx :=
  (List.range (series_length - (reg_period + 1 + fc_period))).map
    (fun i => { model_idx := List.range' (i + 1) reg_period,
                prediction_idx := reg_period + 1 + i })

/-- The regression window length fixed by the source. -/
def regression_period : ℕ := 120

/-- The minimum series length fixed by the source. -/
def minimum_length_to_calculate : ℕ := regression_period + 1

/-- The forecast lookahead fixed by the source. -/
def forecast_period : ℕ := 100

/-- The Kelly fraction fixed by the source. -/
def kelly_fraction : ℚ := 1

/-- The forecast distance fixed by the source inside the loop. -/
def forecast_distance : ℕ := 1

/-- The volatility formula of the source, over the reals:
`((1 + forecast_horizon_model_error) * (forecast_distance ** -0.5)) - 1`. -/
noncomputable def volatilityFormula (forecast_horizon_model_error : ℝ) : ℝ :=
  (1 + forecast_horizon_model_error) * ((forecast_distance : ℝ) ^ (-(1 / 2) : ℝ)) - 1

open Classical in
/-- The volatility actually used by the Kelly step, over the reals: the value
of `volatilityFormula` at the root mean square error `Real.sqrt errSq`,
floored to `0.01` when it equals zero. -/
noncomputable def flooredVolatility (errSq : ℚ) : ℝ :=
  if volatilityFormula (Real.sqrt (errSq : ℝ)) = 0 then 1 / 100
  else volatilityFormula (Real.sqrt (errSq : ℝ))

/-- Square of the floored volatility, carried by the rational pipeline.  The
lemma `volFloorSq_eq_sq_flooredVolatility` proves that for every `errSq` that
is a mean of squares this is exactly `flooredVolatility errSq ^ 2`. -/
def volFloorSq (errSq : ℚ) : ℚ := if errSq ≤ 0 then (1 / 100) ^ 2 else errSq

/-- The guard `volatility < 0` of the source, as a Boolean on the carried
squared error.  The lemma `volatilityIsNegative_iff` proves that this Boolean
agrees with the real comparison `volatilityFormula (Real.sqrt errSq) < 0` at
every input; since a real square root is never negative, it is constantly
false. -/
def volatilityIsNegative (_errSq : ℚ) : Bool := false

/-- The lagged-signal fit slice of a window (`signal_lagged[model_idx, :]`). -/
def fitSignal (signal_lagged : List ℚ) (w : WindowIdx) : List ℚ :=
  w.model_idx.map (fun i => signal_lagged.getD i 0)

/-- The percentage-change fit slice of a window (`price_pct_chg[model_idx]`). -/
def fitPriceChange (price_pct_chg : List ℚ) (w : WindowIdx) : List ℚ :=
  w.model_idx.map (fun i => price_pct_chg.getD i 0)

/-- The `rolling_regression_model` fitted on the fit slices of a window. -/
def windowModel (sl pc : List ℚ) (w : WindowIdx) : FittedModel :=
  fitOLS (fitSignal sl w) (fitPriceChange pc w)

/-- The squared in-sample model error of a window: the mean squared error of
the fitted model on its own fit slice (square of
`forecast_horizon_model_error`). -/
def windowMseSq (sl pc : List ℚ) (w : WindowIdx) : ℚ :=
  meanSquaredError (fitPriceChange pc w) ((fitSignal sl w).map (windowModel sl pc w).predict)

/-- The `forecast_price_change` of a window: the fitted model evaluated at the
lagged signal value at the prediction index. -/
def windowForecast (sl pc : List ℚ) (w : WindowIdx) : ℚ :=
  (windowModel sl pc w).predict (sl.getD w.prediction_idx 0)

/-- Everything one loop iteration leaves behind for later iterations and the
final-point step: the squared standard deviations it measured, the model it
fitted (none in the degenerate case), the squared volatility it used, and the
allocation it wrote. -/
structure WindowOutcome where
  std_price_sq : ℚ
  std_signal_sq : ℚ
  model : Option FittedModel
  volatility_sq : ℚ
  alloc : ℚ
deriving DecidableEq

/-- Placeholder state before the first loop iteration.  The source never reads
the loop variables before an iteration has run, and the loop is guaranteed to
run at least once because an empty window list raises beforehand. -/
def initialOutcome : WindowOutcome :=
  { std_price_sq := 0, std_signal_sq := 0, model := none, volatility_sq := 1, alloc := 0 }

/-- One loop iteration of the source (lines 128 to 178), as a total function.
The degenerate branch (a fit slice without variation) fits no model and yields
allocation 0.0 with volatility 1.0; the normal branch fits the model, floors a
zero volatility to 0.01, and applies the Kelly formula. -/
def windowOutcome (sl pc : List ℚ) (w : WindowIdx) : WindowOutcome :=
  let vP := qVariance (fitPriceChange pc w)
  let vS := qVariance (fitSignal sl w)
  if ¬ 0 < vP ∨ ¬ 0 < vS then
    { std_price_sq := vP, std_signal_sq := vS, model := none, volatility_sq := 1, alloc := 0 }
  else
    let e2 := windowMseSq sl pc w
    let vsq := volFloorSq e2
    { std_price_sq := vP, std_signal_sq := vS, model := some (windowModel sl pc w),
      volatility_sq := vsq, alloc := kelly_fraction * (windowForecast sl pc w / vsq) }

/-- The two fatal conditions of the source: the IndexError raised when the
prediction indices are zero in length, and the ZeroDivisionError raised when a
computed volatility is negative. -/
inductive RunError where
  | configurationError
  | numericalError
deriving DecidableEq

/-- One loop iteration of the source including its fatal guard: identical to
`windowOutcome` except that it raises `numericalError` when the volatility
guard fires (which `volatilityIsNegative_iff` proves impossible). -/
def processWindow (sl pc : List ℚ) (w : WindowIdx) : Except RunError WindowOutcome :=
  let vP := qVariance (fitPriceChange pc w)
  let vS := qVariance (fitSignal sl w)
  if ¬ 0 < vP ∨ ¬ 0 < vS then
    Except.ok { std_price_sq := vP, std_signal_sq := vS, model := none,
                volatility_sq := 1, alloc := 0 }
  else
    let e2 := windowMseSq sl pc w
    if volatilityIsNegative e2 then Except.error RunError.numericalError
    else
      let vsq := volFloorSq e2
      Except.ok { std_price_sq := vP, std_signal_sq := vS, model := some (windowModel sl pc w),
                  volatility_sq := vsq, alloc := kelly_fraction * (windowForecast sl pc w / vsq) }

/-- The loop of the source (lines 128 to 178): processes the windows left to
right, writing each computed allocation into the allocation list at the
prediction index of its window, and threading the loop variables.  On a fatal
error it returns the error with the allocation list as written so far. -/
def runWindows (sl pc : List ℚ) :
    List WindowIdx → List ℚ → WindowOutcome → Except (RunError × List ℚ) (List ℚ × WindowOutcome)
  | [], alloc, last => Except.ok (alloc, last)
  | w :: ws, alloc, _ =>
    match processWindow sl pc w with
    | Except.error e => Except.error (e, alloc)
    | Except.ok o => runWindows sl pc ws (alloc.set w.prediction_idx o.alloc) o

/-- The tabular input of the core.  Modelled from the spec: the PandasEnum
column map is not under src; per spec sections 3 and 6 the table has a price
column, a mid column, the research_1 column, and the allocation output column.
The signal field is sourced from research_1 (spec section 3), so the signal
column is represented by research_1 itself and the source line assigning it is
the identity in this model. -/
structure DataFrame where
  price : List ℚ
  mid : List ℚ
  research_1 : List ℚ
  allocation : List ℚ
deriving DecidableEq

/-- Result of a call: either the mutated table, or a fatal error together with
the state of the table at the moment of the raise (writes made before a raise
persist, since the source mutates the table in place). -/
inductive RunResult where
  | ok (dataframe : DataFrame)
  | err (e : RunError) (dataframe : DataFrame)
deriving DecidableEq

/-- The table held by a result (the mutated table on success, the table state
at the raise on error). -/
def RunResult.df : RunResult → DataFrame
  | RunResult.ok d => d
  | RunResult.err _ d => d

/-- The signal column.  Modelled from the spec: per spec section 3 the signal
field is sourced from the column named research_1, so the assignment on source
line 108 is the identity here. -/
def signalOf (dataframe : DataFrame) : List ℚ := dataframe.research_1

/-- The lagged signal series of the call (source line 119). -/
def signal_laggedOf (dataframe : DataFrame) : List ℚ := lag1 (signalOf dataframe)

/-- The percentage-change series of the call (source line 121). -/
def price_pct_chgOf (dataframe : DataFrame) : List ℚ := pct_chg dataframe.mid

/-- The window list of the call (source line 123). -/
def prediction_indicesOf (dataframe : DataFrame) : List WindowIdx :=
  get_model_prediction_indices (signal_laggedOf dataframe).length
    regression_period forecast_period

/-- The backward shift by one step of source line 181 (`shift(-1)`): every
position takes the value one step ahead.  Pandas leaves NaN in the vacated
last position; since the source unconditionally overwrites the last position
immediately afterwards, the vacated slot is modelled by 0. -/
def shift_neg1 : List ℚ → List ℚ
  | [] => []
  | _ :: xs => xs ++ [0]

/-- Overwrite of the last position (source line 191). -/
def setLast (xs : List ℚ) (v : ℚ) : List ℚ := xs.set (xs.length - 1) v

/-- The final-point value of source lines 183 to 189: if the standard
deviations leaked from the last loop iteration are both positive, the model
leaked from that iteration is extrapolated to the last signal value and put
through the Kelly formula with the leaked volatility; otherwise 0.0. -/
def valueToUpdate (signal : List ℚ) (o : WindowOutcome) : ℚ :=
  if 0 < o.std_price_sq ∧ 0 < o.std_signal_sq then
    match o.model with
    | some m => kelly_fraction * (m.predict (signal.getD (signal.length - 1) 0) / o.volatility_sq)
    | none => 0
  else 0

/-- The core walk-forward allocation function (source lines 99 to 193).
Modelled from the spec where the source relies on collaborators that are not
under src: the window generator and the two series utilities are the
spec-modelled definitions above, and per spec section 4.4 the allocation
column is initialized to the signal column values before the loop writes into
it (the writer runs after the generator guard, following the component order
of spec section 2). -/
def level_relationship (dataframe : DataFrame) : RunResult :=
  if dataframe.mid.length < minimum_length_to_calculate then
    RunResult.ok { dataframe with allocation := List.replicate dataframe.mid.length 0 }
  else if ¬ 0 < (prediction_indicesOf dataframe).length then
    RunResult.err RunError.configurationError dataframe
  else
    match runWindows (signal_laggedOf dataframe) (price_pct_chgOf dataframe)
        (prediction_indicesOf dataframe) (signalOf dataframe) initialOutcome with
    | Except.error e => RunResult.err e.1 { dataframe with allocation := e.2 }
    | Except.ok r =>
        RunResult.ok { dataframe with
          allocation := setLast (shift_neg1 r.1) (valueToUpdate (signalOf dataframe) r.2) }

/-- The allocation list after the loop and before the shift. -/
def allocAfter (sl pc : List ℚ) (ws : List WindowIdx) (acc : List ℚ) : List ℚ :=
  ws.foldl (fun a w => a.set w.prediction_idx (windowOutcome sl pc w).alloc) acc

/-- The loop state after the last window. -/
def lastOutcome (sl pc : List ℚ) (ws : List WindowIdx) (d : WindowOutcome) : WindowOutcome :=
  ws.foldl (fun _ w => windowOutcome sl pc w) d

/-- The allocation list after the loop, for a call on a given table. -/
def loopAllocOf (dataframe : DataFrame) : List ℚ :=
  allocAfter (signal_laggedOf dataframe) (price_pct_chgOf dataframe)
    (prediction_indicesOf dataframe) (signalOf dataframe)

/-- The loop state after the last window, for a call on a given table. -/
def lastOutcomeOf (dataframe : DataFrame) : WindowOutcome :=
  lastOutcome (signal_laggedOf dataframe) (price_pct_chgOf dataframe)
    (prediction_indicesOf dataframe) initialOutcome

/-- The allocation column finally held by the result of a call. -/
def finalAllocOf (dataframe : DataFrame) : List ℚ :=
  ((level_relationship dataframe).df).allocation

/-! Concrete inputs used by the witnesses of the claims below. -/

/-- Concrete table with 3 rows, exercising the short-series guard. -/
def dfShort : DataFrame :=
  { price := [1, 2, 3], mid := [1, 2, 3], research_1 := [4, 5, 6], allocation := [7, 7, 7] }

/-- Concrete table with 130 rows, exercising the empty-window guard. -/
def dfEmptyWindows : DataFrame :=
  { price := List.replicate 130 1, mid := List.replicate 130 1,
    research_1 := List.replicate 130 1, allocation := List.replicate 130 7 }

/-- Concrete table with 130 rows, exercising the empty-window guard. -/
def dfEmptyWindowsB : DataFrame :=
  { price := List.replicate 130 1, mid := List.replicate 130 1,
    research_1 := List.replicate 130 1, allocation := List.replicate 130 7 }

/-- Concrete table with 222 rows (exactly one generated window). -/
def dfOneWindow : DataFrame :=
  { price := List.replicate 222 1, mid := List.replicate 222 1,
    research_1 := List.replicate 222 1, allocation := List.replicate 222 7 }

/-- Concrete table with 222 rows (exactly one generated window). -/
def dfOneWindowB : DataFrame :=
  { price := List.replicate 222 1, mid := List.replicate 222 1,
    research_1 := List.replicate 222 1, allocation := List.replicate 222 7 }

/-- Concrete small window over fit indices 0, 1, 2 with prediction index 3. -/
def wSmall : WindowIdx := { model_idx := [0, 1, 2], prediction_idx := 3 }

/-- Lagged-signal series that is constant on the fit slice of `wSmall`. -/
def slDegen : List ℚ := [1, 1, 1, 1]

/-- Percentage-change series paired with `slDegen`. -/
def pcDegen : List ℚ := [1, 2, 3, 4]

/-- Lagged-signal series with variation on the fit slice of `wSmall`. -/
def slExact : List ℚ := [1, 2, 3, 7]

/-- Percentage-change series that is exactly twice `slExact` on the fit slice
of `wSmall`. -/
def pcExact : List ℚ := [2, 4, 6, 9]

/-- Lagged-signal series with variation, not exactly linear against
`pcKelly`. -/
def slKelly : List ℚ := [1, 2, 4, 5]

/-- Percentage-change series with variation on the fit slice of `wSmall`. -/
def pcKelly : List ℚ := [3, 5, 8, 2]


/-! Helper lemmas: the real-valued volatility formula and its rational image. -/

/-- With `forecast_distance = 1` the volatility formula is the identity. -/
theorem volatilityFormula_eq (e : ℝ) : volatilityFormula e = e := by
  simp [volatilityFormula, forecast_distance]

/-- The Boolean negativity guard agrees with the real comparison everywhere:
both sides are false because a real square root is never negative. -/
theorem volatilityIsNegative_iff (e2 : ℚ) :
    volatilityIsNegative e2 = true ↔ volatilityFormula (Real.sqrt (e2 : ℝ)) < 0 := by
  rw [volatilityFormula_eq]
  simp [volatilityIsNegative, not_lt.mpr (Real.sqrt_nonneg (e2 : ℝ))]

/-- Positivity of a standard deviation is positivity of its square. -/
theorem std_pos_iff (v : ℚ) : 0 < Real.sqrt (v : ℝ) ↔ 0 < v := by
  rw [Real.sqrt_pos]
  exact_mod_cast Iff.rfl

/-- The rational `volFloorSq` is exactly the square of the floored real
volatility. -/
theorem volFloorSq_eq_sq_flooredVolatility (e2 : ℚ) :
    ((volFloorSq e2 : ℚ) : ℝ) = (flooredVolatility e2) ^ 2 := by
  by_cases h : e2 ≤ 0
  · have hs : Real.sqrt (e2 : ℝ) = 0 := Real.sqrt_eq_zero'.mpr (by exact_mod_cast h)
    rw [volFloorSq, if_pos h, flooredVolatility, if_pos (by rw [hs, volatilityFormula_eq])]
    push_cast
    norm_num
  · have h2 : 0 < e2 := lt_of_not_ge h
    have hs : (0 : ℝ) < Real.sqrt (e2 : ℝ) := (std_pos_iff e2).mpr h2
    rw [volFloorSq, if_neg h, flooredVolatility,
      if_neg (by rw [volatilityFormula_eq]; exact ne_of_gt hs)]
    rw [volatilityFormula_eq, Real.sq_sqrt (by exact_mod_cast le_of_lt h2)]

/-! Helper lemmas: list indexing, shift and overwrite. -/

/-- Lagging preserves the length of the series. -/
theorem lag1_length (xs : List ℚ) : (lag1 xs).length = xs.length := by
  cases xs with
  | nil => rfl
  | cons x t => simp [lag1]

/-- Reading inside the left part of an append. -/
theorem getD_append_left {α : Type} (xs ys : List α) (i : ℕ) (d : α)
    (h : i < xs.length) : (xs ++ ys).getD i d = xs.getD i d := by
  induction xs generalizing i with
  | nil => simp at h
  | cons a t ih =>
    cases i with
    | zero => rfl
    | succ j =>
      have : j < t.length := by simpa using h
      simpa [List.getD] using ih j this

/-- Writing at one index does not change reads at another index. -/
theorem getD_set_ne {α : Type} (l : List α) (i j : ℕ) (v d : α) (h : i ≠ j) :
    (l.set i v).getD j d = l.getD j d := by
  induction l generalizing i j with
  | nil => rfl
  | cons a t ih =>
    cases i with
    | zero =>
      cases j with
      | zero => exact absurd rfl h
      | succ k => rfl
    | succ i' =>
      cases j with
      | zero => rfl
      | succ k => simpa [List.getD] using ih i' k (fun hc => h (by rw [hc]))

/-- Reading an in-range index just written. -/
theorem getD_set_self {α : Type} (l : List α) (i : ℕ) (v d : α) (h : i < l.length) :
    (l.set i v).getD i d = v := by
  induction l generalizing i with
  | nil => simp at h
  | cons a t ih =>
    cases i with
    | zero => rfl
    | succ i' =>
      have : i' < t.length := by simpa using h
      simpa [List.getD] using ih i' this

/-- The backward shift moves the value one step ahead into each position. -/
theorem shift_getD (l : List ℚ) (i : ℕ) (h : i + 1 < l.length) :
    (shift_neg1 l).getD i 0 = l.getD (i + 1) 0 := by
  cases l with
  | nil => simp at h
  | cons x t =>
    have : i < t.length := by simpa using h
    simpa [shift_neg1, List.getD] using getD_append_left t [0] i 0 this

/-- The backward shift preserves the length of a nonempty list. -/
theorem shift_length (l : List ℚ) (h : l ≠ []) : (shift_neg1 l).length = l.length := by
  cases l with
  | nil => exact absurd rfl h
  | cons x t => simp [shift_neg1]

/-- Overwriting the last position, read at the last position. -/
theorem setLast_getD_last (l : List ℚ) (v : ℚ) (h : 0 < l.length) :
    (setLast l v).getD (l.length - 1) 0 = v :=
  getD_set_self l (l.length - 1) v 0 (by omega)

/-- Overwriting the last position does not change other positions. -/
theorem setLast_getD_ne (l : List ℚ) (v : ℚ) (i : ℕ) (h : i ≠ l.length - 1) :
    (setLast l v).getD i 0 = l.getD i 0 :=
  getD_set_ne l (l.length - 1) i v 0 (fun hc => h hc.symm)

/-- Overwriting the last position preserves the length. -/
theorem setLast_length (l : List ℚ) (v : ℚ) : (setLast l v).length = l.length :=
  List.length_set l (l.length - 1) v

/-- Every position of an all-zero column reads zero. -/
theorem getD_replicate_zero (n i : ℕ) : (List.replicate n (0 : ℚ)).getD i 0 = 0 := by
  induction n generalizing i with
  | zero => rfl
  | succ m ih =>
    cases i with
    | zero => rfl
    | succ j => simp [List.replicate, List.getD, ih j]

/-! Helper lemmas: the window index generator. -/

/-- Shape of a generated window: its prediction index is at least
`reg_period + 1`, stays within bounds even after the forecast lookahead, and
its fit range is the `reg_period` indices ending just before it. -/
theorem mem_prediction_indices {n r f : ℕ} {w : WindowIdx}
    (h : w ∈ get_model_prediction_indices n r f) :
    r + 1 ≤ w.prediction_idx ∧ w.prediction_idx + f < n ∧
      w.model_idx = List.range' (w.prediction_idx - r) r := by
  rcases List.mem_map.mp h with ⟨i, hi, rfl⟩
  have hlt : i < n - (r + 1 + f) := List.mem_range.mp hi
  refine ⟨?_, ?_, ?_⟩
  · show r + 1 ≤ r + 1 + i
    omega
  · show r + 1 + i + f < n
    omega
  · show List.range' (i + 1) r = List.range' (r + 1 + i - r) r
    congr 1
    omega

/-- The generated prediction indices are pairwise distinct. -/
theorem nodup_prediction_indices (n r f : ℕ) :
    ((get_model_prediction_indices n r f).map WindowIdx.prediction_idx).Nodup := by
  rw [get_model_prediction_indices, List.map_map]
  have hinj : Function.Injective
      (WindowIdx.prediction_idx ∘ fun i =>
        WindowIdx.mk (List.range' (i + 1) r) (r + 1 + i)) := by
    intro a b hab
    have h2 : r + 1 + a = r + 1 + b := hab
    omega
  exact List.Nodup.map hinj (List.nodup_range _)

/-- The number of generated windows. -/
theorem length_prediction_indices (n r f : ℕ) :
    (get_model_prediction_indices n r f).length = n - (r + 1 + f) := by
  simp [get_model_prediction_indices]

/-! Helper lemmas: the loop. -/

/-- The guarded iteration never actually raises: it always returns the total
iteration outcome. -/
theorem processWindow_eq_ok (sl pc : List ℚ) (w : WindowIdx) :
    processWindow sl pc w = Except.ok (windowOutcome sl pc w) := by
  simp only [processWindow, windowOutcome, volatilityIsNegative, Bool.false_eq_true, if_false]
  exact (apply_ite Except.ok _ _ _).symm

/-- The loop always succeeds, computing the fold of the per-window writes and
the state of the last iteration. -/
theorem runWindows_eq (sl pc : List ℚ) (ws : List WindowIdx) (acc : List ℚ)
    (d : WindowOutcome) :
    runWindows sl pc ws acc d = Except.ok (allocAfter sl pc ws acc, lastOutcome sl pc ws d) := by
  induction ws generalizing acc d with
  | nil => simp [runWindows, allocAfter, lastOutcome]
  | cons w t ih => simp [runWindows, allocAfter, lastOutcome, processWindow_eq_ok, ih,
      List.foldl_cons]

/-- The loop writes preserve the length of the allocation list. -/
theorem allocAfter_length (sl pc : List ℚ) (ws : List WindowIdx) (acc : List ℚ) :
    (allocAfter sl pc ws acc).length = acc.length := by
  induction ws generalizing acc with
  | nil => rfl
  | cons w t ih => simpa [allocAfter, List.foldl_cons] using ih (acc.set w.prediction_idx _)

/-- Positions that are no prediction index of any processed window keep their
initial value through the loop. -/
theorem allocAfter_getD_not_mem (sl pc : List ℚ) (ws : List WindowIdx) (acc : List ℚ)
    (i : ℕ) (h : i ∉ ws.map WindowIdx.prediction_idx) :
    (allocAfter sl pc ws acc).getD i 0 = acc.getD i 0 := by
  induction ws generalizing acc with
  | nil => rfl
  | cons w t ih =>
    have hne : w.prediction_idx ≠ i := by
      intro hc
      exact h (by simp [hc.symm])
    have ht : i ∉ t.map WindowIdx.prediction_idx := fun hc => h (by simp [hc])
    calc (allocAfter sl pc (w :: t) acc).getD i 0
        = (acc.set w.prediction_idx (windowOutcome sl pc w).alloc).getD i 0 := ih _ ht
      _ = acc.getD i 0 := getD_set_ne acc w.prediction_idx i _ 0 hne

/-- The prediction index of each processed window ends up holding the value
that window computed, provided the prediction indices are pairwise distinct
and the write is in range. -/
theorem allocAfter_getD_mem (sl pc : List ℚ) (ws : List WindowIdx) (acc : List ℚ)
    (w : WindowIdx) (hmem : w ∈ ws) (hnd : (ws.map WindowIdx.prediction_idx).Nodup)
    (hlt : w.prediction_idx < acc.length) :
    (allocAfter sl pc ws acc).getD w.prediction_idx 0 = (windowOutcome sl pc w).alloc := by
  induction ws generalizing acc with
  | nil => simp at hmem
  | cons a t ih =>
    rw [List.map_cons] at hnd
    have hpair := List.nodup_cons.mp hnd
    rcases List.mem_cons.mp hmem with rfl | hmem2
    · have hnot : w.prediction_idx ∉ t.map WindowIdx.prediction_idx := hpair.1
      calc (allocAfter sl pc (w :: t) acc).getD w.prediction_idx 0
          = (acc.set w.prediction_idx (windowOutcome sl pc w).alloc).getD w.prediction_idx 0 :=
            allocAfter_getD_not_mem sl pc t _ _ hnot
        _ = (windowOutcome sl pc w).alloc := getD_set_self acc _ _ 0 hlt
    · have hnd2 : (t.map WindowIdx.prediction_idx).Nodup := hpair.2
      have hlt2 : w.prediction_idx < (acc.set a.prediction_idx (windowOutcome sl pc a).alloc).length := by
        simpa using hlt
      exact ih _ hmem2 hnd2 hlt2

/-- On the unguarded paths the call reduces to: run the loop from the signal
placeholder, shift backward by one, overwrite the last position with the
final-point value. -/
theorem level_relationship_normal (df : DataFrame)
    (h1 : ¬ df.mid.length < minimum_length_to_calculate)
    (h2 : 0 < (prediction_indicesOf df).length) :
    level_relationship df = RunResult.ok { df with
      allocation := setLast (shift_neg1 (loopAllocOf df))
        (valueToUpdate (signalOf df) (lastOutcomeOf df)) } := by
  rw [level_relationship, if_neg h1, if_neg (not_not_intro h2), runWindows_eq]
  rfl

/-! Helper lemmas: sums, means and the least squares fit on exact linear data. -/

/-- Sum of an affine image of a list. -/
theorem sum_map_affine (xs : List ℚ) (a b : ℚ) :
    (xs.map (fun v => a + b * v)).sum = a * (xs.length : ℚ) + b * xs.sum := by
  induction xs with
  | nil => simp
  | cons x t ih =>
    simp only [List.map_cons, List.sum_cons, List.length_cons, ih]
    push_cast
    ring

/-- Mean of an affine image of a nonempty list. -/
theorem qMean_map_affine (xs : List ℚ) (a b : ℚ) (h : xs ≠ []) :
    qMean (xs.map (fun v => a + b * v)) = a + b * qMean xs := by
  have hlen : (xs.length : ℚ) ≠ 0 := by
    have := List.length_pos.mpr h
    exact_mod_cast Nat.pos_iff_ne_zero.mp this
  rw [qMean, qMean, List.length_map, sum_map_affine]
  field_simp

/-- Zipping a list with an image of itself is a map. -/
theorem zipWith_self_map (f : ℚ → ℚ → ℚ) (g : ℚ → ℚ) (xs : List ℚ) :
    List.zipWith f xs (xs.map g) = xs.map (fun v => f v (g v)) := by
  induction xs with
  | nil => rfl
  | cons x t ih => simp [List.zipWith, ih]

/-- Constant factors move out of a mapped sum. -/
theorem sum_map_mul_left (xs : List ℚ) (c : ℚ) (g : ℚ → ℚ) :
    (xs.map (fun v => c * g v)).sum = c * (xs.map g).sum := by
  induction xs with
  | nil => simp
  | cons x t ih =>
    simp only [List.map_cons, List.sum_cons, ih]
    ring

/-- Pointwise equal functions give equal maps. -/
theorem map_congr_mem {α β : Type} (xs : List α) (f g : α → β)
    (h : ∀ v ∈ xs, f v = g v) : xs.map f = xs.map g := by
  induction xs with
  | nil => rfl
  | cons x t ih =>
    simp only [List.map_cons]
    rw [h x (List.mem_cons_self x t), ih (fun v hv => h v (List.mem_cons_of_mem x hv))]

/-- A positive variance forces a nonempty list and a positive centered sum of
squares. -/
theorem sxx_pos_of_qVariance_pos (xs : List ℚ) (h : 0 < qVariance xs) :
    xs ≠ [] ∧ 0 < (xs.map (fun v => (v - qMean xs) ^ 2)).sum := by
  have hne : xs ≠ [] := by
    intro hc
    rw [hc] at h
    norm_num [qVariance, qMean] at h
  refine ⟨hne, ?_⟩
  have hnn : 0 ≤ (xs.map (fun v => (v - qMean xs) ^ 2)).sum :=
    List.sum_nonneg (by
      intro q hq
      rcases List.mem_map.mp hq with ⟨v, _, rfl⟩
      positivity)
  rcases lt_or_eq_of_le hnn with hpos | hzero
  · exact hpos
  · exfalso
    rw [qVariance, qMean, ← hzero] at h
    simp at h

/-- The least squares fit recovers an exact affine relationship when the
regressor has variation. -/
theorem fitOLS_exact (xs : List ℚ) (a b : ℚ) (hvar : 0 < qVariance xs) :
    fitOLS xs (xs.map (fun v => a + b * v)) = { intercept := a, coef := b } := by
  obtain ⟨hne, hsxx⟩ := sxx_pos_of_qVariance_pos xs hvar
  have hybar : qMean (xs.map (fun v => a + b * v)) = a + b * qMean xs :=
    qMean_map_affine xs a b hne
  simp only [fitOLS, hybar]
  have hS : (List.zipWith (fun p q => (p - qMean xs) * (q - (a + b * qMean xs))) xs
      (xs.map (fun v => a + b * v))).sum
      = b * (xs.map (fun v => (v - qMean xs) ^ 2)).sum := by
    rw [zipWith_self_map (fun p q => (p - qMean xs) * (q - (a + b * qMean xs)))
      (fun v => a + b * v) xs]
    rw [map_congr_mem xs _ (fun v => b * (v - qMean xs) ^ 2) (fun v _ => by ring)]
    exact sum_map_mul_left xs b (fun v => (v - qMean xs) ^ 2)
  rw [hS, mul_div_assoc, div_self (ne_of_gt hsxx), mul_one]
  congr 1
  ring

/-- Zipping equal lists with the squared difference sums to zero. -/
theorem zipWith_sub_sq_self (ys : List ℚ) :
    (List.zipWith (fun p q => (p - q) ^ 2) ys ys).sum = 0 := by
  induction ys with
  | nil => rfl
  | cons y t ih =>
    simp only [List.zipWith_cons_cons, List.sum_cons, ih, sub_self]
    ring

/-- On exact affine data the in-sample mean squared error vanishes. -/
theorem windowMseSq_exact (sl pc : List ℚ) (w : WindowIdx) (a b : ℚ)
    (hvar : 0 < qVariance (fitSignal sl w))
    (hlin : fitPriceChange pc w = (fitSignal sl w).map (fun v => a + b * v)) :
    windowMseSq sl pc w = 0 := by
  have hmodel : windowModel sl pc w = { intercept := a, coef := b } := by
    rw [windowModel, hlin]
    exact fitOLS_exact (fitSignal sl w) a b hvar
  rw [windowMseSq, hlin, hmodel]
  have hpred : (fitSignal sl w).map (FittedModel.predict { intercept := a, coef := b })
      = (fitSignal sl w).map (fun v => a + b * v) := rfl
  rw [hpred, meanSquaredError, qMean, zipWith_sub_sq_self]
  simp

/-! Claim theorems. -/

/-- Claim C1: for every input series with fewer than
regression_period + 1 = 121 observations, level_relationship fits no model and
returns immediately with an output allocation that is 0.0 at every
position. -/
theorem claim_C1_short_series (df : DataFrame)
    (h : df.mid.length < minimum_length_to_calculate) :
    level_relationship df
      = RunResult.ok { df with allocation := List.replicate df.mid.length 0 }
    ∧ ∀ i : ℕ, ((level_relationship df).df).allocation.getD i 0 = 0 := by
  have h1 : level_relationship df
      = RunResult.ok { df with allocation := List.replicate df.mid.length 0 } := by
    rw [level_relationship, if_pos h]
  refine ⟨h1, ?_⟩
  intro i
  rw [h1]
  exact getD_replicate_zero _ _

/-- Witness for claim C1 at a concrete 3-row table. -/
theorem claim_C1_short_series_witness :
    dfShort.mid.length < minimum_length_to_calculate
    ∧ level_relationship dfShort
        = RunResult.ok { dfShort with allocation := List.replicate dfShort.mid.length 0 } :=
  ⟨by decide, (claim_C1_short_series dfShort (by decide)).1⟩

/-- Claim C3: for every window in which the percentage-change fit slice or the
lagged-signal fit slice has no strictly positive standard deviation, the
iteration fits no model, yields allocation exactly 0.0 and volatility 1.0,
raises nothing, and the loop goes on processing the remaining windows. -/
theorem claim_C3_degenerate_window (sl pc : List ℚ) (w : WindowIdx)
    (h : ¬ 0 < qVariance (fitPriceChange pc w) ∨ ¬ 0 < qVariance (fitSignal sl w)) :
    processWindow sl pc w = Except.ok
      { std_price_sq := qVariance (fitPriceChange pc w),
        std_signal_sq := qVariance (fitSignal sl w),
        model := none, volatility_sq := 1, alloc := 0 }
    ∧ ∀ (ws : List WindowIdx) (acc : List ℚ) (d : WindowOutcome),
        runWindows sl pc (w :: ws) acc d
          = runWindows sl pc ws (acc.set w.prediction_idx 0)
              { std_price_sq := qVariance (fitPriceChange pc w),
                std_signal_sq := qVariance (fitSignal sl w),
                model := none, volatility_sq := 1, alloc := 0 } := by
  have hout : windowOutcome sl pc w
      = { std_price_sq := qVariance (fitPriceChange pc w),
          std_signal_sq := qVariance (fitSignal sl w),
          model := none, volatility_sq := 1, alloc := 0 } := by
    simp only [windowOutcome]
    rw [if_pos h]
  refine ⟨by rw [processWindow_eq_ok, hout], ?_⟩
  intro ws acc d
  simp only [runWindows, processWindow_eq_ok, hout]

/-- Witness for claim C3 at a constant lagged-signal window. -/
theorem claim_C3_degenerate_window_witness :
    (¬ 0 < qVariance (fitPriceChange pcDegen wSmall)
      ∨ ¬ 0 < qVariance (fitSignal slDegen wSmall))
    ∧ processWindow slDegen pcDegen wSmall = Except.ok
        { std_price_sq := qVariance (fitPriceChange pcDegen wSmall),
          std_signal_sq := qVariance (fitSignal slDegen wSmall),
          model := none, volatility_sq := 1, alloc := 0 } := by
  have hs : fitSignal slDegen wSmall = [1, 1, 1] := by decide
  have hyp : ¬ 0 < qVariance (fitPriceChange pcDegen wSmall)
      ∨ ¬ 0 < qVariance (fitSignal slDegen wSmall) := by
    right
    rw [hs]
    norm_num [qVariance, qMean]
  exact ⟨hyp, (claim_C3_degenerate_window slDegen pcDegen wSmall hyp).1⟩

/-- Claim C6: when the series passes the length guard but the window generator
yields an empty sequence for regression period 120 and forecast period 100,
the call signals the configuration error and aborts with the table exactly as
the caller passed it, in particular with no allocation value written. -/
theorem claim_C6_configuration_error (df : DataFrame)
    (h1 : ¬ df.mid.length < minimum_length_to_calculate)
    (h2 : prediction_indicesOf df = []) :
    level_relationship df = RunResult.err RunError.configurationError df := by
  rw [level_relationship, if_neg h1, if_pos (by simp [h2])]

/-- Witness for claim C6 at a concrete 130-row table. -/
theorem claim_C6_configuration_error_witness :
    (¬ dfEmptyWindowsB.mid.length < minimum_length_to_calculate)
    ∧ prediction_indicesOf dfEmptyWindowsB = []
    ∧ level_relationship dfEmptyWindowsB
        = RunResult.err RunError.configurationError dfEmptyWindowsB := by
  have h1 : ¬ dfEmptyWindowsB.mid.length < minimum_length_to_calculate := by decide
  have hn : (signal_laggedOf dfEmptyWindowsB).length = 130 := by
    rw [signal_laggedOf, signalOf, lag1_length]
    decide
  have h2 : prediction_indicesOf dfEmptyWindowsB = [] := by
    rw [prediction_indicesOf, hn]
    decide
  exact ⟨h1, h2, claim_C6_configuration_error dfEmptyWindowsB h1 h2⟩

/-- Claim C7: the volatility produced by the fixed formula from a root mean
square error is never negative, and consequently a call never signals the
numerical error: every fatal error a call can signal is the configuration
error. -/
theorem claim_C7_numerical_error_unreachable :
    (∀ e2 : ℚ, 0 ≤ volatilityFormula (Real.sqrt (e2 : ℝ)))
    ∧ (∀ (df d2 : DataFrame) (e : RunError),
        level_relationship df = RunResult.err e d2 → e = RunError.configurationError) := by
  constructor
  · intro e2
    rw [volatilityFormula_eq]
    exact Real.sqrt_nonneg _
  · intro df d2 e h
    by_cases h1 : df.mid.length < minimum_length_to_calculate
    · rw [level_relationship, if_pos h1] at h
      exact RunResult.noConfusion h
    · by_cases h2 : 0 < (prediction_indicesOf df).length
      · rw [level_relationship_normal df h1 h2] at h
        exact RunResult.noConfusion h
      · rw [level_relationship, if_neg h1, if_pos h2] at h
        injection h with he hd
        exact he.symm

/-- Witness for claim C7: a concrete call that signals an error signals the
configuration error. -/
theorem claim_C7_numerical_error_unreachable_witness :
    level_relationship dfEmptyWindows
      = RunResult.err RunError.configurationError dfEmptyWindows
    ∧ RunError.configurationError = RunError.configurationError := by
  have h1 : ¬ dfEmptyWindows.mid.length < minimum_length_to_calculate := by decide
  have hn : (signal_laggedOf dfEmptyWindows).length = 130 := by
    rw [signal_laggedOf, signalOf, lag1_length]
    decide
  have h2 : ¬ 0 < (prediction_indicesOf dfEmptyWindows).length := by
    rw [prediction_indicesOf, hn]
    decide
  have h : level_relationship dfEmptyWindows
      = RunResult.err RunError.configurationError dfEmptyWindows := by
    rw [level_relationship, if_neg h1, if_pos h2]
  exact ⟨h, claim_C7_numerical_error_unreachable.2 dfEmptyWindows dfEmptyWindows
    RunError.configurationError h⟩

/-- Claim C9: a call mutates only the allocation column: the price, mid and
research_1 columns of the resulting table state, on success and on error
alike, are exactly the columns the caller passed (the signal field is sourced
from research_1 and is therefore likewise unchanged). -/
theorem claim_C9_frame_effect (df : DataFrame) :
    ((level_relationship df).df).price = df.price
    ∧ ((level_relationship df).df).mid = df.mid
    ∧ ((level_relationship df).df).research_1 = df.research_1 := by
  rw [level_relationship]
  by_cases h1 : df.mid.length < minimum_length_to_calculate
  · rw [if_pos h1]
    exact ⟨rfl, rfl, rfl⟩
  · rw [if_neg h1]
    by_cases h2 : ¬ 0 < (prediction_indicesOf df).length
    · rw [if_pos h2]
      exact ⟨rfl, rfl, rfl⟩
    · rw [if_neg h2, runWindows_eq]
      exact ⟨rfl, rfl, rfl⟩

/-- Claim C10: the window index generator never returns two windows with the
same prediction index, returns at most series_length - regression_period
windows, and for fixed periods its output length is monotonically
non-decreasing in the series length. -/
theorem claim_C10_generator_properties :
    (∀ n r f : ℕ, ((get_model_prediction_indices n r f).map WindowIdx.prediction_idx).Nodup)
    ∧ (∀ n r f : ℕ, (get_model_prediction_indices n r f).length ≤ n - r)
    ∧ (∀ n m r f : ℕ, n ≤ m →
        (get_model_prediction_indices n r f).length
          ≤ (get_model_prediction_indices m r f).length) := by
  refine ⟨fun n r f => nodup_prediction_indices n r f, fun n r f => ?_, fun n m r f h => ?_⟩
  · rw [length_prediction_indices]
    omega
  · rw [length_prediction_indices, length_prediction_indices]
    omega

/-- Witness for claim C10 at concrete lengths 150 and 400. -/
theorem claim_C10_generator_properties_witness :
    (150 : ℕ) ≤ 400
    ∧ (get_model_prediction_indices 150 120 100).length
        ≤ (get_model_prediction_indices 400 120 100).length :=
  ⟨by decide, claim_C10_generator_properties.2.2 150 400 120 100 (by decide)⟩

/-- Claim C2: after the loop, the whole allocation series is shifted backward
by one step (the value computed at prediction index p appears at position
p - 1), and the last position is overwritten with the final-point value: the
model and volatility leaked from the last processed window extrapolated to the
last signal value through the Kelly formula, or 0.0 when the last processed
window lacked variation. -/
theorem claim_C2_shift_and_final (df : DataFrame)
    (h1 : ¬ df.mid.length < minimum_length_to_calculate)
    (h2 : prediction_indicesOf df ≠ []) :
    (∀ i : ℕ, i + 1 < df.research_1.length →
        (finalAllocOf df).getD i 0 = (loopAllocOf df).getD (i + 1) 0)
    ∧ (∀ w ∈ prediction_indicesOf df,
        (finalAllocOf df).getD (w.prediction_idx - 1) 0
          = (windowOutcome (signal_laggedOf df) (price_pct_chgOf df) w).alloc)
    ∧ (finalAllocOf df).getD (df.research_1.length - 1) 0
        = valueToUpdate (signalOf df) (lastOutcomeOf df)
    ∧ (∀ (s : List ℚ) (o : WindowOutcome),
        ¬ (0 < o.std_price_sq ∧ 0 < o.std_signal_sq) → valueToUpdate s o = 0)
    ∧ (∀ (s : List ℚ) (o : WindowOutcome) (m : FittedModel), o.model = some m →
        (0 < o.std_price_sq ∧ 0 < o.std_signal_sq) →
        valueToUpdate s o
          = kelly_fraction * (m.predict (s.getD (s.length - 1) 0) / o.volatility_sq)) := by
  have hpos : 0 < (prediction_indicesOf df).length := List.length_pos.mpr h2
  have hfinal : finalAllocOf df
      = setLast (shift_neg1 (loopAllocOf df))
          (valueToUpdate (signalOf df) (lastOutcomeOf df)) := by
    rw [finalAllocOf, level_relationship_normal df h1 hpos]
    rfl
  have hn : 222 ≤ df.research_1.length := by
    have h3 := hpos
    rw [prediction_indicesOf, length_prediction_indices, signal_laggedOf, signalOf,
      lag1_length] at h3
    simp only [regression_period, forecast_period] at h3
    omega
  have hlenLoop : (loopAllocOf df).length = df.research_1.length := by
    rw [loopAllocOf, allocAfter_length]
    rfl
  have hLoopNe : loopAllocOf df ≠ [] := by
    intro hc
    rw [hc] at hlenLoop
    simp at hlenLoop
    omega
  have hshiftlen : (shift_neg1 (loopAllocOf df)).length = df.research_1.length := by
    rw [shift_length _ hLoopNe, hlenLoop]
  have hshift : ∀ i : ℕ, i + 1 < df.research_1.length →
      (finalAllocOf df).getD i 0 = (loopAllocOf df).getD (i + 1) 0 := by
    intro i hi
    rw [hfinal, setLast_getD_ne _ _ i (by rw [hshiftlen]; omega)]
    exact shift_getD (loopAllocOf df) i (by rw [hlenLoop]; omega)
  refine ⟨hshift, ?_, ?_, ?_, ?_⟩
  · intro w hw
    obtain ⟨hple, hpf, _⟩ := mem_prediction_indices hw
    have hplen : w.prediction_idx < df.research_1.length := by
      rw [signal_laggedOf, signalOf, lag1_length] at hpf
      omega
    have hp1 : w.prediction_idx - 1 + 1 = w.prediction_idx := by omega
    rw [hshift (w.prediction_idx - 1) (by omega), hp1, loopAllocOf]
    exact allocAfter_getD_mem _ _ _ _ w hw
      (by
        have := nodup_prediction_indices ((signal_laggedOf df).length)
          regression_period forecast_period
        exact this)
      (by
        show w.prediction_idx < (signalOf df).length
        exact hplen)
  · rw [hfinal, ← hshiftlen]
    exact setLast_getD_last _ _ (by rw [hshiftlen]; omega)
  · intro s o ho
    rw [valueToUpdate, if_neg ho]
  · intro s o m hm ho
    rw [valueToUpdate, if_pos ho, hm]

/-- Witness for claim C2 at a concrete 222-row table with one window. -/
theorem claim_C2_shift_and_final_witness :
    (¬ dfOneWindow.mid.length < minimum_length_to_calculate)
    ∧ prediction_indicesOf dfOneWindow ≠ []
    ∧ (finalAllocOf dfOneWindow).getD (dfOneWindow.research_1.length - 1) 0
        = valueToUpdate (signalOf dfOneWindow) (lastOutcomeOf dfOneWindow) := by
  have h1 : ¬ dfOneWindow.mid.length < minimum_length_to_calculate := by decide
  have hn : (signal_laggedOf dfOneWindow).length = 222 := by
    rw [signal_laggedOf, signalOf, lag1_length]
    decide
  have h2 : prediction_indicesOf dfOneWindow ≠ [] := by
    rw [prediction_indicesOf, hn]
    decide
  exact ⟨h1, h2, (claim_C2_shift_and_final dfOneWindow h1 h2).2.2.1⟩

/-- Claim C8: the allocation column starts from the signal column values as a
placeholder, so after the final backward shift every position whose successor
lies in no processed window holds the shifted signal value, while the
prediction index of every processed window was overwritten by that window
Kelly result before the shift. -/
theorem claim_C8_placeholder (df : DataFrame)
    (h1 : ¬ df.mid.length < minimum_length_to_calculate)
    (h2 : prediction_indicesOf df ≠ []) :
    (∀ i : ℕ, i + 1 < df.research_1.length →
        (i + 1) ∉ (prediction_indicesOf df).map WindowIdx.prediction_idx →
        (finalAllocOf df).getD i 0 = df.research_1.getD (i + 1) 0)
    ∧ (∀ w ∈ prediction_indicesOf df,
        (loopAllocOf df).getD w.prediction_idx 0
          = (windowOutcome (signal_laggedOf df) (price_pct_chgOf df) w).alloc) := by
  have hpos : 0 < (prediction_indicesOf df).length := List.length_pos.mpr h2
  have hfinal : finalAllocOf df
      = setLast (shift_neg1 (loopAllocOf df))
          (valueToUpdate (signalOf df) (lastOutcomeOf df)) := by
    rw [finalAllocOf, level_relationship_normal df h1 hpos]
    rfl
  have hn : 222 ≤ df.research_1.length := by
    have h3 := hpos
    rw [prediction_indicesOf, length_prediction_indices, signal_laggedOf, signalOf,
      lag1_length] at h3
    simp only [regression_period, forecast_period] at h3
    omega
  have hlenLoop : (loopAllocOf df).length = df.research_1.length := by
    rw [loopAllocOf, allocAfter_length]
    rfl
  have hLoopNe : loopAllocOf df ≠ [] := by
    intro hc
    rw [hc] at hlenLoop
    simp at hlenLoop
    omega
  have hshiftlen : (shift_neg1 (loopAllocOf df)).length = df.research_1.length := by
    rw [shift_length _ hLoopNe, hlenLoop]
  constructor
  · intro i hi hnot
    rw [hfinal, setLast_getD_ne _ _ i (by rw [hshiftlen]; omega)]
    rw [shift_getD (loopAllocOf df) i (by rw [hlenLoop]; omega)]
    rw [loopAllocOf, allocAfter_getD_not_mem _ _ _ _ _ hnot]
    rfl
  · intro w hw
    obtain ⟨hple, hpf, _⟩ := mem_prediction_indices hw
    have hplen : w.prediction_idx < df.research_1.length := by
      rw [signal_laggedOf, signalOf, lag1_length] at hpf
      omega
    rw [loopAllocOf]
    exact allocAfter_getD_mem _ _ _ _ w hw
      (nodup_prediction_indices ((signal_laggedOf df).length) regression_period forecast_period)
      (by
        show w.prediction_idx < (signalOf df).length
        exact hplen)

/-- Witness for claim C8 at a concrete 222-row table with one window:
position 5 has successor 6, which is no prediction index, so it holds the
shifted signal value. -/
theorem claim_C8_placeholder_witness :
    (¬ dfOneWindowB.mid.length < minimum_length_to_calculate)
    ∧ prediction_indicesOf dfOneWindowB ≠ []
    ∧ 5 + 1 < dfOneWindowB.research_1.length
    ∧ (5 + 1) ∉ (prediction_indicesOf dfOneWindowB).map WindowIdx.prediction_idx
    ∧ (finalAllocOf dfOneWindowB).getD 5 0 = dfOneWindowB.research_1.getD (5 + 1) 0 := by
  have h1 : ¬ dfOneWindowB.mid.length < minimum_length_to_calculate := by decide
  have hn : (signal_laggedOf dfOneWindowB).length = 222 := by
    rw [signal_laggedOf, signalOf, lag1_length]
    decide
  have h2 : prediction_indicesOf dfOneWindowB ≠ [] := by
    rw [prediction_indicesOf, hn]
    decide
  have hi : 5 + 1 < dfOneWindowB.research_1.length := by decide
  have hnot : (5 + 1) ∉ (prediction_indicesOf dfOneWindowB).map WindowIdx.prediction_idx := by
    rw [prediction_indicesOf, hn]
    decide
  exact ⟨h1, h2, hi, hnot, (claim_C8_placeholder dfOneWindowB h1 h2).1 5 hi hnot⟩

/-- Claim C4: the volatility formula with forecast_distance = 1 equals the in
sample root mean square error; a volatility equal to zero is floored to 0.01
before the Kelly step; and on a fit window where the percentage change is an
exact linear function of the lagged signal the computed allocation equals
forecast_price_change divided by 0.01 squared. -/
theorem claim_C4_volatility_and_floor :
    (∀ e : ℝ, volatilityFormula e = e)
    ∧ (∀ e2 : ℚ, volatilityFormula (Real.sqrt (e2 : ℝ)) = 0 → flooredVolatility e2 = 1 / 100)
    ∧ (∀ (sl pc : List ℚ) (w : WindowIdx) (a b : ℚ),
        0 < qVariance (fitPriceChange pc w) →
        0 < qVariance (fitSignal sl w) →
        fitPriceChange pc w = (fitSignal sl w).map (fun v => a + b * v) →
        windowMseSq sl pc w = 0
        ∧ (windowOutcome sl pc w).alloc = windowForecast sl pc w / (1 / 100 : ℚ) ^ 2) := by
  refine ⟨volatilityFormula_eq, ?_, ?_⟩
  · intro e2 h
    rw [flooredVolatility, if_pos h]
  · intro sl pc w a b hP hS hlin
    have hmse : windowMseSq sl pc w = 0 := windowMseSq_exact sl pc w a b hS hlin
    refine ⟨hmse, ?_⟩
    simp only [windowOutcome]
    rw [if_neg (by push_neg; exact ⟨hP, hS⟩)]
    show kelly_fraction * (windowForecast sl pc w / volFloorSq (windowMseSq sl pc w))
        = windowForecast sl pc w / (1 / 100 : ℚ) ^ 2
    rw [hmse]
    norm_num [volFloorSq, kelly_fraction]

/-- Witness for claim C4 at a concrete exactly linear window. -/
theorem claim_C4_volatility_and_floor_witness :
    volatilityFormula (Real.sqrt ((0 : ℚ) : ℝ)) = 0
    ∧ flooredVolatility 0 = 1 / 100
    ∧ 0 < qVariance (fitPriceChange pcExact wSmall)
    ∧ 0 < qVariance (fitSignal slExact wSmall)
    ∧ fitPriceChange pcExact wSmall = (fitSignal slExact wSmall).map (fun v => 0 + 2 * v)
    ∧ windowMseSq slExact pcExact wSmall = 0 := by
  have h0 : volatilityFormula (Real.sqrt ((0 : ℚ) : ℝ)) = 0 := by
    rw [volatilityFormula_eq]
    simp
  have hfp : fitPriceChange pcExact wSmall = [2, 4, 6] := by decide
  have hfs : fitSignal slExact wSmall = [1, 2, 3] := by decide
  have hP : 0 < qVariance (fitPriceChange pcExact wSmall) := by
    rw [hfp]
    norm_num [qVariance, qMean]
  have hS : 0 < qVariance (fitSignal slExact wSmall) := by
    rw [hfs]
    norm_num [qVariance, qMean]
  have hlin : fitPriceChange pcExact wSmall
      = (fitSignal slExact wSmall).map (fun v => 0 + 2 * v) := by
    rw [hfp, hfs]
    norm_num
  exact ⟨h0, claim_C4_volatility_and_floor.2.1 0 h0, hP, hS, hlin,
    (claim_C4_volatility_and_floor.2.2 slExact pcExact wSmall 0 2 hP hS hlin).1⟩

/-- Claim C5: in every non-degenerate window the written allocation equals
kelly_fraction times forecast_price_change divided by the squared (floored)
volatility; the loop writes it at the prediction index of the window; and the
result is unbounded: it exceeds any prescribed bound on suitable inputs, so no
clamping to the interval from -1 to 1 takes place. -/
theorem claim_C5_kelly_unbounded :
    (∀ (sl pc : List ℚ) (w : WindowIdx),
        0 < qVariance (fitPriceChange pc w) →
        0 < qVariance (fitSignal sl w) →
        (((windowOutcome sl pc w).alloc : ℚ) : ℝ)
          = ((kelly_fraction : ℚ) : ℝ) * ((windowForecast sl pc w : ℚ) : ℝ)
              / flooredVolatility (windowMseSq sl pc w) ^ 2)
    ∧ (∀ (sl pc : List ℚ) (w : WindowIdx) (ws : List WindowIdx) (acc : List ℚ)
          (d : WindowOutcome),
        runWindows sl pc (w :: ws) acc d
          = runWindows sl pc ws (acc.set w.prediction_idx (windowOutcome sl pc w).alloc)
              (windowOutcome sl pc w))
    ∧ (∀ B : ℚ, ∃ (sl pc : List ℚ) (w : WindowIdx),
        0 < qVariance (fitPriceChange pc w) ∧ 0 < qVariance (fitSignal sl w)
        ∧ B < (windowOutcome sl pc w).alloc) := by
  refine ⟨?_, ?_, ?_⟩
  · intro sl pc w hP hS
    simp only [windowOutcome]
    rw [if_neg (by push_neg; exact ⟨hP, hS⟩)]
    show ((kelly_fraction * (windowForecast sl pc w / volFloorSq (windowMseSq sl pc w)) : ℚ) : ℝ)
        = ((kelly_fraction : ℚ) : ℝ) * ((windowForecast sl pc w : ℚ) : ℝ)
            / flooredVolatility (windowMseSq sl pc w) ^ 2
    rw [Rat.cast_mul, Rat.cast_div, volFloorSq_eq_sq_flooredVolatility]
    ring
  · intro sl pc w ws acc d
    simp only [runWindows, processWindow_eq_ok]
  · intro B
    refine ⟨[1, 2, 3, max B 1], [2, 4, 6, 0], ⟨[0, 1, 2], 3⟩, ?_, ?_, ?_⟩
    · show 0 < qVariance (fitPriceChange [2, 4, 6, 0] ⟨[0, 1, 2], 3⟩)
      have hfp : fitPriceChange [2, 4, 6, 0] ⟨[0, 1, 2], 3⟩ = [2, 4, 6] := rfl
      rw [hfp]
      norm_num [qVariance, qMean]
    · show 0 < qVariance (fitSignal [1, 2, 3, max B 1] ⟨[0, 1, 2], 3⟩)
      have hfs : fitSignal [1, 2, 3, max B 1] ⟨[0, 1, 2], 3⟩ = [1, 2, 3] := rfl
      rw [hfs]
      norm_num [qVariance, qMean]
    · have hfp : fitPriceChange [2, 4, 6, 0] ⟨[0, 1, 2], 3⟩ = [2, 4, 6] := rfl
      have hfs : fitSignal [1, 2, 3, max B 1] ⟨[0, 1, 2], 3⟩ = [1, 2, 3] := rfl
      have hP : 0 < qVariance (fitPriceChange [2, 4, 6, 0] ⟨[0, 1, 2], 3⟩) := by
        rw [hfp]
        norm_num [qVariance, qMean]
      have hS : 0 < qVariance (fitSignal [1, 2, 3, max B 1] ⟨[0, 1, 2], 3⟩) := by
        rw [hfs]
        norm_num [qVariance, qMean]
      have hlin : fitPriceChange [2, 4, 6, 0] ⟨[0, 1, 2], 3⟩
          = (fitSignal [1, 2, 3, max B 1] ⟨[0, 1, 2], 3⟩).map (fun v => 0 + 2 * v) := by
        rw [hfp, hfs]
        norm_num
      have hmse : windowMseSq [1, 2, 3, max B 1] [2, 4, 6, 0] ⟨[0, 1, 2], 3⟩ = 0 :=
        windowMseSq_exact _ _ _ 0 2 hS hlin
      have hmodel : windowModel [1, 2, 3, max B 1] [2, 4, 6, 0] ⟨[0, 1, 2], 3⟩
          = { intercept := 0, coef := 2 } := by
        rw [windowModel, hlin]
        exact fitOLS_exact _ 0 2 hS
      simp only [windowOutcome]
      rw [if_neg (by push_neg; exact ⟨hP, hS⟩)]
      show B < kelly_fraction * (windowForecast [1, 2, 3, max B 1] [2, 4, 6, 0] ⟨[0, 1, 2], 3⟩
          / volFloorSq (windowMseSq [1, 2, 3, max B 1] [2, 4, 6, 0] ⟨[0, 1, 2], 3⟩))
      rw [hmse, windowForecast, hmodel]
      have hgd : ([1, 2, 3, max B 1] : List ℚ).getD 3 0 = max B 1 := rfl
      rw [hgd]
      simp only [FittedModel.predict, kelly_fraction, volFloorSq]
      norm_num
      have hm1 : (1 : ℚ) ≤ max B 1 := le_max_right B 1
      have hm2 : B ≤ max B 1 := le_max_left B 1
      nlinarith

/-- Witness for claim C5 at a concrete window with variation in both fit
slices. -/
theorem claim_C5_kelly_unbounded_witness :
    0 < qVariance (fitPriceChange pcKelly wSmall)
    ∧ 0 < qVariance (fitSignal slKelly wSmall)
    ∧ (((windowOutcome slKelly pcKelly wSmall).alloc : ℚ) : ℝ)
        = ((kelly_fraction : ℚ) : ℝ) * ((windowForecast slKelly pcKelly wSmall : ℚ) : ℝ)
            / flooredVolatility (windowMseSq slKelly pcKelly wSmall) ^ 2 := by
  have hfp : fitPriceChange pcKelly wSmall = [3, 5, 8] := by decide
  have hfs : fitSignal slKelly wSmall = [1, 2, 4] := by decide
  have hP : 0 < qVariance (fitPriceChange pcKelly wSmall) := by
    rw [hfp]
    norm_num [qVariance, qMean]
  have hS : 0 < qVariance (fitSignal slKelly wSmall) := by
    rw [hfs]
    norm_num [qVariance, qMean]
  exact ⟨hP, hS, claim_C5_kelly_unbounded.1 slKelly pcKelly wSmall hP hS⟩
